import Mathlib

/-!
Verification of the possum utility package (`utils/utility.go`).

The package tracks liveness state ("alive"/"dead") for a group of named
members (a "passel" of "possums") in a SQL table `state(possum, state)`.
We embed it shallowly:

* A credential payload (`cfenv` service credentials, a JSON object) is a
  partial map `String → Option Value`; `none` models both an absent key and
  a JSON null value, which are indistinguishable through Go map indexing.
* The SQL table is a flat list of rows `(possum, state)` in insertion
  order; `QueryRow "SELECT * FROM state WHERE possum=?"` is first-match
  lookup, `UPDATE ... WHERE possum=?` rewrites every matching row, and
  `INSERT` appends.  The in-memory store cannot fail, so the generic
  driver-error paths of the Go code do not arise.
* A Go function that can panic (unchecked type assertion) returns a
  `GoResult` with a dedicated `panik` constructor, distinct from an
  ordinary returned `error` (`err`).
-/

namespace Possum

/-- A dynamically typed credential value (non-null JSON values as Go sees
them through `interface`).  Absent and null values are both modelled by
`Option.none` at the payload level. -/
inductive Value where
  | str (s : String)
  | num (n : Int)
  | seq (vs : List Value)

/-- A credential payload: the `Credentials` map of a bound service. -/
abbrev Credentials := String → Option Value

/-- Outcome of a Go function returning `(α, error)`: a normal value, a
returned error, or a runtime panic. -/
inductive GoResult (α : Type) where
  | ok (a : α)
  | err (msg : String)
  | panik (msg : String)
deriving DecidableEq, Repr

/-- The string carried by a `Value.str`, if any. -/
def Value.asStr : Value → Option String
  | .str s => some s
  | _ => none

/-- Loop body of `GetPassel`: walks the asserted `[]interface` slice,
rejecting the first non-string element and accumulating the strings in
source order (`possums = append(possums, possum.(string))`). -/
def passelLoop : List Value → List String → GoResult (List String)
  | [], acc => .ok acc
  | v :: vs, acc =>
    match v with
    | .str s => passelLoop vs (acc ++ [s])
    | _ => .err "possum was not a string"

/-- `GetPassel`: reads `Credentials["passel"]` and runs
`passel.([]interface)` — an unchecked type assertion, which panics when the
value is nil (key absent) or not a slice — then validates every element is
a string. -/
def GetPassel (creds : Credentials) : GoResult (List String) :=
  match creds "passel" with
  | some (.seq vs) => passelLoop vs []
  | _ => .panik "interface conversion: credentials value is not a slice of interface"

/-- The persisted `state` table: rows `(possum, state)` in insertion order.
No uniqueness constraint; duplicates are representable. -/
abbrev Store := List (String × String)

/-- `db.QueryRow("SELECT * FROM state WHERE possum=?", possum)`: the first
row whose `possum` column matches, if any. -/
def selectFirst (st : Store) (possum : String) : Option (String × String) :=
  st.find? (fun r => r.1 == possum)

/-- Membership loop of `SetupStateDB`: for each possum a point lookup, and
on `sql: no rows in result set` an `INSERT INTO state VALUES (?, "alive")`.
Also counts the inserts performed. -/
def setupLoop : Store → List String → Nat → Store × Nat
  | st, [], n => (st, n)
  | st, p :: ps, n =>
    match selectFirst st p with
    | some _ => setupLoop st ps n
    | none => setupLoop (st ++ [(p, "alive")]) ps (n + 1)

/-- `SetupStateDB`: `CREATE TABLE IF NOT EXISTS` (a no-op on the modelled
store, whose schema always exists), then `GetPassel`, whose failure is
propagated with the store unchanged, then the per-member check-then-insert
loop.  Returns the resulting store and the number of rows inserted. -/
def SetupStateDB (creds : Credentials) (st : Store) : GoResult (Store × Nat) :=
  match GetPassel creds with
  | .ok passel => .ok (setupLoop st passel 0)
  | .err m => .err m
  | .panik m => .panik m

/-- `GetState`: point lookup; `sql: no rows in result set` becomes the
`Could not find possum ... in db` error. -/
def GetState (st : Store) (possum : String) : GoResult String :=
  match selectFirst st possum with
  | none => .err ("Could not find possum " ++ possum ++ " in db")
  | some r => .ok r.2

/-- The `map[string]string` accumulated by `GetPasselState`, modelled by
its lookup function. -/
abbrev PasselMap := String → Option String

/-- Go map assignment `m[k] = v`. -/
def mapSet (m : PasselMap) (k v : String) : PasselMap :=
  fun q => if q = k then some v else m q

/-- The empty Go map (`make(map[string]string)`). -/
def emptyMap : PasselMap := fun _ => none

/-- Loop of `GetPasselState`: one point lookup per member in list order,
failing fast on the first member with no row and otherwise accumulating
`passelState[possum] = state`. -/
def passelStateLoop (st : Store) : List String → PasselMap → GoResult PasselMap
  | [], acc => .ok acc
  | p :: ps, acc =>
    match selectFirst st p with
    | none => .err ("Could not find possum " ++ p ++ " in db")
    | some r => passelStateLoop st ps (mapSet acc p r.2)

/-- `GetPasselState`: rejects an empty passel, then runs the lookup loop
starting from an empty map. -/
def GetPasselState (st : Store) (passel : List String) : GoResult PasselMap :=
  if passel.length = 0 then .err "Passel had 0 members"
  else passelStateLoop st passel emptyMap

/-- `WriteState`: validates `desiredState` is "alive" or "dead" before any
store access, then `UPDATE state SET state=? WHERE possum=?`, which
rewrites the state of every matching row (zero matches update nothing and
are not an error).  Returns the Go error (if any) and the store after the
call. -/
def WriteState (st : Store) (desiredPossum desiredState : String) :
    Option String × Store :=
  if desiredState ≠ "alive" ∧ desiredState ≠ "dead" then
    (some ("The state should have been \"alive\" or \"dead\" not \"" ++
      desiredState ++ "\""), st)
  else
    (none, st.map (fun r => if r.1 == desiredPossum then (r.1, desiredState) else r))

mutual

/-- Rendering of one credential value by Go `fmt` (model): a string prints
itself, a number its decimal form, a slice its elements bracketed and
space-separated.  The exact text of number/slice rendering is a model of
the external `fmt` library, not of this repository. -/
def renderVal : Value → String
  | .str s => s
  | .num n => toString n
  | .seq vs => "[" ++ renderValList vs ++ "]"

/-- Space-separated rendering of a slice's elements. -/
def renderValList : List Value → String
  | [] => ""
  | [v] => renderVal v
  | v :: vs => renderVal v ++ " " ++ renderValList vs

end

/-- Go `fmt` `%s` verb on a possibly-nil credential value. -/
def renderS : Option Value → String
  | none => "%!s(<nil>)"
  | some v => renderVal v

/-- Go `fmt` `%v` verb on a possibly-nil credential value. -/
def renderVerbV : Option Value → String
  | none => "<nil>"
  | some v => renderVal v

/-- `GetDBConnectionDetails`, statement for statement: read `host` and fall
back to `hostname` when it is nil, read `database` and fall back to `name`
when it is nil, then
`fmt.Sprintf("%s:%s@tcp(%s:%v)/%s", username, password, hostname, port,
database)`. -/
def GetDBConnectionDetails (creds : Credentials) : String :=
  let hostname := creds "host"
  let hostname := if hostname.isNone then creds "hostname" else hostname
  let database := creds "database"
  let database := if database.isNone then creds "name" else database
  renderS (creds "username") ++ ":" ++ renderS (creds "password") ++ "@tcp(" ++
    renderS hostname ++ ":" ++ renderVerbV (creds "port") ++ ")/" ++
    renderS database

/-- Modelled from the spec: key lookup with a fallback key used when the
primary key is absent ("`host` falls back from a `host` key to a `hostname`
key, and `database` falls back from a `database` key to a `name` key"). -/
def fallbackKey (creds : Credentials) (primary secondary : String) : Option Value :=
  match creds primary with
  | some v => some v
  | none => creds secondary

/-- Modelled from the spec: the connection string in the format
`username:password@tcp(host:port)/database`, with the `host` and `database`
slots filled through `fallbackKey`. -/
def connStringSpec (creds : Credentials) : String :=
  renderS (creds "username") ++ ":" ++ renderS (creds "password") ++ "@tcp(" ++
    renderS (fallbackKey creds "host" "hostname") ++ ":" ++
    renderVerbV (creds "port") ++ ")/" ++
    renderS (fallbackKey creds "database" "name")

/-- `GetUsername`: nil credential means empty string, otherwise the
unchecked assertion `username.(string)` — a panic on any non-string
value. -/
def GetUsername (creds : Credentials) : GoResult String :=
  match creds "username" with
  | none => .ok ""
  | some (.str s) => .ok s
  | some _ => .panik "interface conversion: credentials value is not a string"

/-- `GetPassword`: same shape as `GetUsername` for the `password` key. -/
def GetPassword (creds : Credentials) : GoResult String :=
  match creds "password" with
  | none => .ok ""
  | some (.str s) => .ok s
  | some _ => .panik "interface conversion: credentials value is not a string"

/-- One invocation of a store-touching operation of the subsystem. -/
inductive Op where
  | setup (creds : Credentials)
  | write (possum state : String)
  | getOne (possum : String)
  | getAll (passel : List String)

/-- The store after running one operation: `SetupStateDB` leaves the store
unchanged when the Membership Resolver fails (the failure precedes any row
access), `WriteState` yields its updated store, and the two readers issue
only SELECTs. -/
def applyOp (op : Op) (st : Store) : Store :=
  match op with
  | .setup creds =>
    match SetupStateDB creds st with
    | .ok (st2, _) => st2
    | .err _ => st
    | .panik _ => st
  | .write p s => (WriteState st p s).2
  | .getOne _ => st
  | .getAll _ => st

/-- Every persisted state value is "alive" or "dead". -/
def StoreValid (st : Store) : Prop :=
  ∀ r ∈ st, r.2 = "alive" ∨ r.2 = "dead"

/-- A payload with no keys at all. -/
def emptyCreds : Credentials := fun _ => none

/-- A payload whose passel is the two all-string members north, south. -/
def credsNS : Credentials :=
  fun k => if k = "passel" then some (.seq [.str "north", .str "south"]) else none

/-- The spec's malformed membership example: a 42 between two strings. -/
def credsBad : Credentials :=
  fun k => if k = "passel" then some (.seq [.str "a", .num 42, .str "b"]) else none

/-- A payload whose basic-auth username and password are numbers. -/
def credsNum : Credentials :=
  fun k => if k = "username" ∨ k = "password" then some (.num 42) else none

/-- A possum already present before the loop, or one processed by the loop,
has a row after the loop. -/
lemma setupLoop_covers (ps : List String) : ∀ (st : Store) (n : Nat) (k : String),
    (k ∈ ps ∨ (selectFirst st k).isSome) → (selectFirst (setupLoop st ps n).1 k).isSome := by
  induction ps with
  | nil =>
    intro st n k h
    rcases h with h | h
    · cases h
    · simpa [setupLoop] using h
  | cons p ps ih =>
    intro st n k h
    cases hsel : selectFirst st p with
    | some r =>
      simp only [setupLoop, hsel]
      apply ih
      rcases h with h | h
      · rcases List.mem_cons.mp h with rfl | h2
        · exact Or.inr (by simp [hsel])
        · exact Or.inl h2
      · exact Or.inr h
    | none =>
      simp only [setupLoop, hsel]
      apply ih
      rcases h with h | h
      · rcases List.mem_cons.mp h with rfl | h2
        · refine Or.inr ?_
          simp [selectFirst, List.find?_append]
        · exact Or.inl h2
      · refine Or.inr ?_
        simp only [selectFirst, List.find?_append] at h ⊢
        cases hk : List.find? (fun r => r.1 == k) st with
        | some q => simp [hk]
        | none => simp [hk] at h

/-- When every possum already has a row, the loop is the identity and
performs zero inserts. -/
lemma setupLoop_fixed (ps : List String) : ∀ (st : Store) (n : Nat),
    (∀ p ∈ ps, (selectFirst st p).isSome) → setupLoop st ps n = (st, n) := by
  induction ps with
  | nil => intro st n _; rfl
  | cons p ps ih =>
    intro st n h
    obtain ⟨r, hr⟩ := Option.isSome_iff_exists.mp (h p (List.mem_cons_self p ps))
    simp only [setupLoop, hr]
    exact ih st n (fun q hq => h q (List.mem_cons_of_mem p hq))

/-- Every row after the loop was either already present or was inserted
with state "alive". -/
lemma setupLoop_rows (ps : List String) : ∀ (st : Store) (n : Nat) (r : String × String),
    r ∈ (setupLoop st ps n).1 → r ∈ st ∨ r.2 = "alive" := by
  induction ps with
  | nil =>
    intro st n r h
    exact Or.inl (by simpa [setupLoop] using h)
  | cons p ps ih =>
    intro st n r h
    cases hsel : selectFirst st p with
    | some q =>
      simp only [setupLoop, hsel] at h
      exact ih st n r h
    | none =>
      simp only [setupLoop, hsel] at h
      rcases ih _ _ r h with hmem | halive
      · rcases List.mem_append.mp hmem with h1 | h1
        · exact Or.inl h1
        · rcases List.mem_singleton.mp h1 with rfl
          exact Or.inr rfl
      · exact Or.inr halive

/-- When every listed possum has a row, the lookup loop succeeds, and the
resulting map holds the first matching row's state for each listed possum
and the accumulator's entry for every other key. -/
lemma passelStateLoop_ok (st : Store) (ps : List String) : ∀ (acc : PasselMap),
    (∀ p ∈ ps, (selectFirst st p).isSome) →
    ∃ pm, passelStateLoop st ps acc = .ok pm ∧
      ∀ k, pm k = if k ∈ ps then (selectFirst st k).map Prod.snd else acc k := by
  induction ps with
  | nil =>
    intro acc _
    exact ⟨acc, rfl, by intro k; simp⟩
  | cons p ps ih =>
    intro acc h
    obtain ⟨r, hr⟩ := Option.isSome_iff_exists.mp (h p (List.mem_cons_self p ps))
    obtain ⟨pm, hpm, hform⟩ :=
      ih (mapSet acc p r.2) (fun q hq => h q (List.mem_cons_of_mem p hq))
    refine ⟨pm, ?_, ?_⟩
    · simp only [passelStateLoop, hr]
      exact hpm
    · intro k
      rw [hform k]
      by_cases hk : k ∈ ps
      · simp [hk, List.mem_cons]
      · by_cases hkp : k = p
        · subst hkp
          simp [hk, mapSet, hr, List.mem_cons]
        · simp [hk, hkp, mapSet, List.mem_cons]

/-- The lookup loop fails at the first possum with no row, in list order,
with that possum's name in the message. -/
lemma passelStateLoop_missing (st : Store) : ∀ (pre : List String) (p₀ : String)
    (post : List String) (acc : PasselMap),
    (∀ q ∈ pre, (selectFirst st q).isSome) → selectFirst st p₀ = none →
    passelStateLoop st (pre ++ p₀ :: post) acc =
      .err ("Could not find possum " ++ p₀ ++ " in db") := by
  intro pre
  induction pre with
  | nil =>
    intro p₀ post acc _ hnone
    simp [passelStateLoop, hnone]
  | cons q pre ih =>
    intro p₀ post acc hpre hnone
    obtain ⟨r, hr⟩ := Option.isSome_iff_exists.mp (hpre q (List.mem_cons_self q pre))
    simp only [List.cons_append, passelStateLoop, hr]
    exact ih p₀ post _ (fun x hx => hpre x (List.mem_cons_of_mem q hx)) hnone

/-- On an all-string slice the passel loop returns the accumulated names
followed by the slice's strings in source order. -/
lemma passelLoop_ok : ∀ (vs : List Value) (acc : List String),
    (∀ v ∈ vs, ∃ s, v = .str s) →
    passelLoop vs acc = .ok (acc ++ vs.filterMap Value.asStr) := by
  intro vs
  induction vs with
  | nil => intro acc _; simp [passelLoop]
  | cons v vs ih =>
    intro acc h
    obtain ⟨s, rfl⟩ := h v (List.mem_cons_self v vs)
    simp only [passelLoop]
    rw [ih (acc ++ [s]) (fun w hw => h w (List.mem_cons_of_mem _ hw))]
    simp [Value.asStr]

/-- A slice holding any non-string element makes the passel loop fail. -/
lemma passelLoop_nonString : ∀ (vs : List Value) (acc : List String),
    (∃ v ∈ vs, ∀ s, v ≠ .str s) →
    passelLoop vs acc = .err "possum was not a string" := by
  intro vs
  induction vs with
  | nil =>
    intro acc h
    rcases h with ⟨v, hv, _⟩
    cases hv
  | cons v vs ih =>
    intro acc h
    cases v with
    | str s =>
      rcases h with ⟨w, hw, hns⟩
      rcases List.mem_cons.mp hw with rfl | hw2
      · exact absurd rfl (hns s)
      · simp only [passelLoop]
        exact ih _ ⟨w, hw2, hns⟩
    | num n => simp [passelLoop]
    | seq l => simp [passelLoop]

/-- After updating every row of the given possum, the first matching row
carries the new state (assuming such a row exists). -/
lemma write_find_updated (m s : String) : ∀ (st : Store),
    (∃ r ∈ st, r.1 = m) →
    (st.map (fun r => if r.1 == m then (r.1, s) else r)).find? (fun r => r.1 == m) =
      some (m, s) := by
  intro st
  induction st with
  | nil =>
    intro h
    rcases h with ⟨r, hr, _⟩
    cases hr
  | cons a st ih =>
    intro h
    by_cases ha : a.1 = m
    · simp [List.map_cons, beq_iff_eq, ha, List.find?_cons_of_pos]
    · have hex : ∃ r ∈ st, r.1 = m := by
        rcases h with ⟨r, hr, hrm⟩
        rcases List.mem_cons.mp hr with rfl | hr2
        · exact absurd hrm ha
        · exact ⟨r, hr2, hrm⟩
      simp only [List.map_cons]
      rw [if_neg (by simp [beq_iff_eq, ha])]
      rw [List.find?_cons_of_neg _ (by simp [beq_iff_eq, ha])]
      exact ih hex

/-- Claim C1, counterexample: on a payload with no `passel` key the
Membership Resolver panics through the unchecked `[]interface` type
assertion — it does not return the TypeMismatch error the claim demands
for a missing membership value. -/
theorem getPassel_missing_panics :
    GetPassel emptyCreds =
      .panik "interface conversion: credentials value is not a slice of interface" ∧
    decide (GetPassel emptyCreds = GoResult.err "possum was not a string") = false :=
  ⟨rfl, by decide⟩

/-- Claim C1, amended: the Membership Resolver panics (unchecked type
assertion) when the membership value is missing or not a sequence; it fails
with the TypeMismatch error only when the sequence contains a non-string
element; on an all-string sequence it returns the member names in source
order. -/
theorem getPassel_spec :
    (∀ creds, creds "passel" = none →
      GetPassel creds =
        .panik "interface conversion: credentials value is not a slice of interface") ∧
    (∀ creds v, creds "passel" = some v → (∀ vs, v ≠ .seq vs) →
      GetPassel creds =
        .panik "interface conversion: credentials value is not a slice of interface") ∧
    (∀ creds vs, creds "passel" = some (.seq vs) → (∀ v ∈ vs, ∃ s, v = .str s) →
      GetPassel creds = .ok (vs.filterMap Value.asStr)) ∧
    (∀ creds vs, creds "passel" = some (.seq vs) → (∃ v ∈ vs, ∀ s, v ≠ .str s) →
      GetPassel creds = .err "possum was not a string") := by
  refine ⟨?_, ?_, ?_, ?_⟩
  · intro creds h
    simp [GetPassel, h]
  · intro creds v h hv
    cases v with
    | str s => simp [GetPassel, h]
    | num n => simp [GetPassel, h]
    | seq vs => exact absurd rfl (hv vs)
  · intro creds vs h hstr
    simp only [GetPassel, h]
    simpa using passelLoop_ok vs [] hstr
  · intro creds vs h hbad
    simp only [GetPassel, h]
    exact passelLoop_nonString vs [] hbad

/-- Claim C1, witness: the three reachable behaviours at concrete payloads,
including the spec's own malformed example with a 42 between two
strings. -/
theorem getPassel_spec_witness :
    GetPassel emptyCreds =
      .panik "interface conversion: credentials value is not a slice of interface" ∧
    GetPassel credsNS = .ok (([Value.str "north", Value.str "south"]).filterMap Value.asStr) ∧
    GetPassel credsBad = .err "possum was not a string" := by
  refine ⟨?_, ?_, ?_⟩
  · exact getPassel_spec.1 emptyCreds rfl
  · refine getPassel_spec.2.2.1 credsNS [Value.str "north", Value.str "south"] rfl ?_
    intro v hv
    rcases List.mem_cons.mp hv with rfl | hv2
    · exact ⟨_, rfl⟩
    rcases List.mem_cons.mp hv2 with rfl | hv3
    · exact ⟨_, rfl⟩
    cases hv3
  · refine getPassel_spec.2.2.2 credsBad [Value.str "a", Value.num 42, Value.str "b"] rfl ?_
    exact ⟨Value.num 42, by simp, fun s h => Value.noConfusion h⟩

/-- Claim C3: the Initializer is idempotent — a second run on the store
produced by a first run inserts zero rows and returns the store
unchanged. -/
theorem setupStateDB_idempotent (creds : Credentials) (st st1 : Store) (n1 : Nat)
    (h : SetupStateDB creds st = .ok (st1, n1)) :
    SetupStateDB creds st1 = .ok (st1, 0) := by
  cases hM : GetPassel creds with
  | ok M =>
    simp only [SetupStateDB, hM] at h ⊢
    injection h with h2
    have hst1 : st1 = (setupLoop st M 0).1 := by rw [h2]
    have hcover : ∀ p ∈ M, (selectFirst st1 p).isSome := by
      intro p hp
      rw [hst1]
      exact setupLoop_covers M st 0 p (Or.inl hp)
    rw [setupLoop_fixed M st1 0 hcover]
  | err m =>
    rw [SetupStateDB, hM] at h
    exact GoResult.noConfusion h
  | panik m =>
    rw [SetupStateDB, hM] at h
    exact GoResult.noConfusion h

/-- Claim C3, witness: re-running the Initializer on the store the first
run produced from the north/south payload inserts nothing. -/
theorem setupStateDB_idempotent_witness :
    SetupStateDB credsNS [("north", "alive"), ("south", "alive")] =
      .ok ([("north", "alive"), ("south", "alive")], 0) :=
  setupStateDB_idempotent credsNS [] [("north", "alive"), ("south", "alive")] 2 rfl

/-- Claim C4: for a possum with exactly one row and a valid state, a write
followed by a read returns the state just written. -/
theorem write_then_get_roundtrip (st : Store) (m s : String)
    (hone : st.countP (fun r => r.1 == m) = 1)
    (hs : s = "alive" ∨ s = "dead") :
    (WriteState st m s).1 = none ∧ GetState (WriteState st m s).2 m = .ok s := by
  have hvalid : ¬(s ≠ "alive" ∧ s ≠ "dead") := by
    rcases hs with rfl | rfl <;> simp
  have hex : ∃ r ∈ st, r.1 = m := by
    have hpos : 0 < st.countP (fun r => r.1 == m) := by omega
    obtain ⟨r, hr, hp⟩ := List.countP_pos_iff.mp hpos
    exact ⟨r, hr, by simpa using hp⟩
  refine ⟨by simp [WriteState, hvalid], ?_⟩
  have hw : (WriteState st m s).2 =
      st.map (fun r => if r.1 == m then (r.1, s) else r) := by
    simp [WriteState, hvalid]
  rw [hw]
  have hfind : selectFirst (st.map (fun r => if r.1 == m then (r.1, s) else r)) m =
      some (m, s) := write_find_updated m s st hex
  unfold GetState
  rw [hfind]

/-- Claim C4, witness: updating the single "a" row to "dead" and reading it
back. -/
theorem write_then_get_roundtrip_witness :
    ([(("a" : String), ("alive" : String))].countP (fun r => r.1 == "a") = 1) ∧
    (WriteState [("a", "alive")] "a" "dead").1 = none ∧
    GetState (WriteState [("a", "alive")] "a" "dead").2 "a" = .ok "dead" :=
  ⟨by decide, write_then_get_roundtrip [("a", "alive")] "a" "dead" (by decide) (Or.inr rfl)⟩

/-- Claim C2: for a non-empty membership list the Membership Resolver
produced, one Initializer run on the empty store yields a store on which
the bulk read succeeds with exactly the members as keys, each mapped to
"alive". -/
theorem setup_then_getPasselState (creds : Credentials) (M : List String)
    (st1 : Store) (n1 : Nat)
    (hM : GetPassel creds = .ok M) (hne : M ≠ [])
    (hsetup : SetupStateDB creds [] = .ok (st1, n1)) :
    ∃ pm, GetPasselState st1 M = .ok pm ∧
      ∀ k, pm k = if k ∈ M then some "alive" else none := by
  rw [SetupStateDB, hM] at hsetup
  injection hsetup with h2
  have hst1 : st1 = (setupLoop [] M 0).1 := by rw [h2]
  have hcover : ∀ k ∈ M, (selectFirst st1 k).isSome := by
    intro k hk
    rw [hst1]
    exact setupLoop_covers M [] 0 k (Or.inl hk)
  have halive : ∀ r ∈ st1, r.2 = "alive" := by
    intro r hr
    rw [hst1] at hr
    rcases setupLoop_rows M [] 0 r hr with hmem | h
    · cases hmem
    · exact h
  obtain ⟨pm, hpm, hform⟩ := passelStateLoop_ok st1 M emptyMap hcover
  have hlen : ¬M.length = 0 := by simpa [List.length_eq_zero] using hne
  refine ⟨pm, ?_, ?_⟩
  · rw [GetPasselState, if_neg hlen]
    exact hpm
  · intro k
    rw [hform k]
    by_cases hk : k ∈ M
    · obtain ⟨r, hr⟩ := Option.isSome_iff_exists.mp (hcover k hk)
      have hmem : r ∈ st1 := List.mem_of_find?_eq_some hr
      rw [if_pos hk, if_pos hk, hr]
      simp [halive r hmem]
    · rw [if_neg hk, if_neg hk]
      rfl

/-- Claim C2, witness: the north/south payload, its two-row store after
initialization, and the resulting all-alive map. -/
theorem setup_then_getPasselState_witness :
    GetPassel credsNS = .ok ["north", "south"] ∧
    SetupStateDB credsNS [] = .ok ([("north", "alive"), ("south", "alive")], 2) ∧
    ∃ pm, GetPasselState [("north", "alive"), ("south", "alive")] ["north", "south"] = .ok pm ∧
      ∀ k, pm k = if k ∈ (["north", "south"] : List String) then some "alive" else none :=
  ⟨rfl, rfl,
    setup_then_getPasselState credsNS ["north", "south"]
      [("north", "alive"), ("south", "alive")] 2 rfl (by simp) rfl⟩

/-- Claim C5: on a non-empty list the bulk read fails with the NotFound
error naming the first member (in list order) that has no row, returning no
mapping; when every member has a row it returns the full mapping (first
matching row's state per member, nothing else), and it leaves the store
untouched. -/
theorem getPasselState_all_or_nothing (st : Store) (M : List String) (hne : M ≠ []) :
    (∀ (pre : List String) (p₀ : String) (post : List String),
      M = pre ++ p₀ :: post → (∀ q ∈ pre, (selectFirst st q).isSome) →
      selectFirst st p₀ = none →
      GetPasselState st M = .err ("Could not find possum " ++ p₀ ++ " in db")) ∧
    ((∀ p ∈ M, (selectFirst st p).isSome) →
      ∃ pm, GetPasselState st M = .ok pm ∧
        (∀ p ∈ M, pm p = (selectFirst st p).map Prod.snd) ∧
        (∀ k, k ∉ M → pm k = none)) ∧
    applyOp (.getAll M) st = st := by
  have hlen : ¬M.length = 0 := by simpa [List.length_eq_zero] using hne
  refine ⟨?_, ?_, rfl⟩
  · intro pre p₀ post hMeq hpre hnone
    rw [GetPasselState, if_neg hlen, hMeq]
    exact passelStateLoop_missing st pre p₀ post emptyMap hpre hnone
  · intro hall
    obtain ⟨pm, hpm, hform⟩ := passelStateLoop_ok st M emptyMap hall
    refine ⟨pm, ?_, ?_, ?_⟩
    · rw [GetPasselState, if_neg hlen]
      exact hpm
    · intro p hp
      rw [hform p, if_pos hp]
    · intro k hk
      rw [hform k, if_neg hk]
      rfl

/-- Claim C5, witness: with only an "a" row, reading ["a", "b"] fails
naming "b", and reading ["a"] returns the full one-member mapping. -/
theorem getPasselState_all_or_nothing_witness :
    GetPasselState [("a", "alive")] ["a", "b"] =
      .err ("Could not find possum " ++ "b" ++ " in db") ∧
    ∃ pm, GetPasselState [("a", "alive")] ["a"] = .ok pm ∧
      (∀ p ∈ (["a"] : List String),
        pm p = (selectFirst [("a", "alive")] p).map Prod.snd) ∧
      (∀ k, k ∉ (["a"] : List String) → pm k = none) := by
  constructor
  · exact (getPasselState_all_or_nothing [("a", "alive")] ["a", "b"] (by simp)).1
      ["a"] "b" [] rfl
      (by intro q hq; rcases List.mem_singleton.mp hq with rfl; rfl) rfl
  · exact (getPasselState_all_or_nothing [("a", "alive")] ["a"] (by simp)).2.1
      (by intro p hp; rcases List.mem_singleton.mp hp with rfl; rfl)

/-- Claim C6: a desired state that is neither "alive" nor "dead" is
rejected with the InvalidArgument error and the store comes back
unchanged. -/
theorem writeState_invalid_state (st : Store) (m s : String)
    (h1 : s ≠ "alive") (h2 : s ≠ "dead") :
    WriteState st m s =
      (some ("The state should have been \"alive\" or \"dead\" not \"" ++ s ++ "\""), st) := by
  simp [WriteState, h1, h2]

/-- Claim C6, witness: writing "unknown" errors out and mutates nothing. -/
theorem writeState_invalid_state_witness :
    WriteState [("a", "alive")] "a" "unknown" =
      (some ("The state should have been \"alive\" or \"dead\" not \"" ++ "unknown" ++ "\""),
        [("a", "alive")]) :=
  writeState_invalid_state [("a", "alive")] "a" "unknown" (by decide) (by decide)

/-- Claim C7: a valid write aimed at a possum with no row succeeds (no
error) and the store comes back unchanged — zero affected rows are not an
error. -/
theorem writeState_unknown_member (st : Store) (m s : String)
    (habs : ∀ r ∈ st, r.1 ≠ m) (hs : s = "alive" ∨ s = "dead") :
    WriteState st m s = (none, st) := by
  have hvalid : ¬(s ≠ "alive" ∧ s ≠ "dead") := by
    rcases hs with rfl | rfl <;> simp
  have hmap : st.map (fun r => if r.1 == m then (r.1, s) else r) = st := by
    calc st.map (fun r => if r.1 == m then (r.1, s) else r) = st.map id := by
          apply List.map_congr_left
          intro r hr
          simp [beq_iff_eq, habs r hr]
      _ = st := List.map_id st
  simp only [WriteState, if_neg hvalid, hmap]

/-- Claim C7, witness: a "dead" write for the absent possum "b" against the
one-row store. -/
theorem writeState_unknown_member_witness :
    WriteState [("a", "alive")] "b" "dead" = (none, [("a", "alive")]) :=
  writeState_unknown_member [("a", "alive")] "b" "dead" (by decide) (Or.inr rfl)

/-- Claim C8: starting from a store whose every state is "alive" or "dead"
(the empty store included), each operation of the subsystem — Initializer,
write, single read, bulk read — leaves every persisted state in that
two-value set. -/
theorem ops_preserve_state_values (op : Op) (st : Store) (h : StoreValid st) :
    StoreValid (applyOp op st) := by
  cases op with
  | setup creds =>
    cases hM : GetPassel creds with
    | ok M =>
      simp only [applyOp, SetupStateDB, hM]
      intro r hr
      rcases setupLoop_rows M st 0 r hr with hmem | halive
      · exact h r hmem
      · exact Or.inl halive
    | err m => simpa only [applyOp, SetupStateDB, hM] using h
    | panik m => simpa only [applyOp, SetupStateDB, hM] using h
  | write p s =>
    by_cases hvalid : s ≠ "alive" ∧ s ≠ "dead"
    · simpa only [applyOp, WriteState, if_pos hvalid] using h
    · have hs : s = "alive" ∨ s = "dead" := by
        by_contra hc
        push_neg at hc
        exact hvalid hc
      simp only [applyOp, WriteState, if_neg hvalid]
      intro r hr
      obtain ⟨q, hq, hqr⟩ := List.mem_map.mp hr
      by_cases hqm : (q.1 == p) = true
      · rw [if_pos hqm] at hqr
        rw [← hqr]
        exact hs
      · rw [if_neg hqm] at hqr
        rw [← hqr]
        exact h q hq
  | getOne p => simpa only [applyOp] using h
  | getAll ps => simpa only [applyOp] using h

/-- Claim C8, witness: the invariant holds for the empty store and survives
a "dead" write against it. -/
theorem ops_preserve_state_values_witness :
    StoreValid ([] : Store) ∧ StoreValid (applyOp (.write "a" "dead") []) :=
  ⟨(by intro r hr; cases hr),
    ops_preserve_state_values (.write "a" "dead") [] (by intro r hr; cases hr)⟩

/-- Claim C9: for every credential payload the assembled connection string
is exactly the spec's `username:password@tcp(host:port)/database`, with the
host slot falling back from the `host` key to the `hostname` key and the
database slot falling back from the `database` key to the `name` key. -/
theorem connection_string_matches_spec (creds : Credentials) :
    GetDBConnectionDetails creds = connStringSpec creds := by
  cases h1 : creds "host" <;> cases h2 : creds "database" <;>
    simp [GetDBConnectionDetails, connStringSpec, fallbackKey, h1, h2]

/-- Claim C10: a present but non-string basic-auth credential makes
GetUsername/GetPassword panic through the unchecked string assertion rather
than return an error, while an absent credential gives the empty-string
success. -/
theorem basic_auth_non_string_panics :
    GetUsername credsNum = .panik "interface conversion: credentials value is not a string" ∧
    (∀ msg, GetUsername credsNum ≠ .err msg) ∧
    (∀ creds, creds "username" = none → GetUsername creds = .ok "") ∧
    GetPassword credsNum = .panik "interface conversion: credentials value is not a string" ∧
    (∀ msg, GetPassword credsNum ≠ .err msg) ∧
    (∀ creds, creds "password" = none → GetPassword creds = .ok "") := by
  refine ⟨rfl, ?_, ?_, rfl, ?_, ?_⟩
  · intro msg h
    simp [GetUsername, credsNum] at h
  · intro creds h
    simp [GetUsername, h]
  · intro msg h
    simp [GetPassword, credsNum] at h
  · intro creds h
    simp [GetPassword, h]

/-- Claim C10, witness: the empty payload exercises the absent-credential
branches. -/
theorem basic_auth_non_string_panics_witness :
    GetUsername emptyCreds = .ok "" ∧ GetPassword emptyCreds = .ok "" :=
  ⟨basic_auth_non_string_panics.2.2.1 emptyCreds rfl,
    basic_auth_non_string_panics.2.2.2.2.2 emptyCreds rfl⟩

end Possum
